import Mathlib

/-!
Verification development for `src/fmripost_aroma/interfaces/reportlets.py`.

The Python module builds HTML reportlet fragments (SubjectSummary, AboutSummary)
and wraps two FSL tools (MELODICRPT, ICAAROMARPT) to emit visual reports.  The
definitions below are a shallow embedding of that module: pure string-building
code becomes Lean functions on `String`/`List Char`; Python exceptions become
`Except PyErr`; filesystem effects become explicit result records listing the
files a call would write.
-/

/-- Python exception kinds that the embedded code can raise. -/
inductive PyErr
  /-- `AttributeError`: calling `.groupdict()` on a failed regex search (`None`). -/
  | attributeError
  /-- `TypeError`: slicing `None` (`None[5:]`), or concatenating `str` with `Undefined`. -/
  | typeError
  /-- `IndexError`: `s[0]` on an empty list. -/
  | indexError
  /-- `NotImplementedError`: raised by `SummaryInterface._generate_segment` (line 101). -/
  | notImplementedError
deriving DecidableEq

instance {ε α : Type} [DecidableEq ε] [DecidableEq α] : DecidableEq (Except ε α) := fun a b =>
  match a, b with
  | .ok x, .ok y =>
    if h : x = y then isTrue (by rw [h]) else isFalse (by intro c; cases c; exact h rfl)
  | .error x, .error y =>
    if h : x = y then isTrue (by rw [h]) else isFalse (by intro c; cases c; exact h rfl)
  | .ok _, .error _ => isFalse (by intro c; cases c)
  | .error _, .ok _ => isFalse (by intro c; cases c)

/-! ## String primitives

Kernel-reducible models of the Python / OS string operations the module uses.
-/

/-- Model of Python `str.startswith`. -/
def startsWithStr (s t : String) : Bool := t.data.isPrefixOf s.data

/-- `t` occurs as a contiguous substring of `s` (Python `t in s`). -/
def strContains (s t : String) : Prop := t.data <:+: s.data

instance (s t : String) : Decidable (strContains s t) :=
  inferInstanceAs (Decidable (_ <:+: _))

/-- `s` ends with `t` (Python `str.endswith`). -/
def strEndsWith (s t : String) : Prop := t.data <:+ s.data

instance (s t : String) : Decidable (strEndsWith s t) :=
  inferInstanceAs (Decidable (_ <:+ _))

/-- Model of POSIX `os.path.isabs`. -/
def osIsAbs (p : String) : Bool := startsWithStr p "/"

/-- Model of POSIX `os.path.join` for two components: an absolute second
component discards the first; otherwise a single separator is inserted. -/
def osJoin (a b : String) : String :=
  if osIsAbs b then b
  else if a = "" then b
  else if strEndsWith a "/" then a ++ b
  else a ++ "/" ++ b

instance (a : String) : Decidable (strEndsWith a "/") := inferInstanceAs (Decidable (_ <:+ _))

/-- Model of `os.path.abspath` relative to a current working directory `cwd`.
Path normalization (`normpath`) is not modelled: paths are treated as opaque
strings, which is faithful for every property proved below. -/
def osAbspath (cwd p : String) : String := if osIsAbs p then p else osJoin cwd p

/-- Model of Python `str.join` (`sep.join(xs)`). -/
def joinSep (sep : String) : List String → String
  | [] => ""
  | [x] => x
  | x :: y :: xs => x ++ sep ++ joinSep sep (y :: xs)

/-- Fuel-driven worker for `pyReplace`; the fuel starts at the length of the
subject string, which always suffices for a non-empty pattern. -/
def replFuel (pat repl : List Char) : Nat → List Char → List Char
  | _, [] => []
  | 0, s => s
  | f + 1, c :: rest =>
    if !pat.isEmpty && pat.isPrefixOf (c :: rest) then
      repl ++ replFuel pat repl f ((c :: rest).drop pat.length)
    else
      c :: replFuel pat repl f rest

/-- Model of Python `str.replace(pat, repl)` for a non-empty pattern: every
non-overlapping occurrence, scanned left to right, is replaced. -/
def pyReplace (s pat repl : String) : String :=
  ⟨replFuel pat.data repl.data s.data.length s.data⟩

/-- Python slice `s[n:]`. -/
def pyDropStr (s : String) (n : Nat) : String := ⟨s.data.drop n⟩

/-- Effect-free left-to-right `mapM` over `Except`, mirroring how a Python
generator consumed by `Counter`/a list comprehension surfaces the first
exception raised. -/
def exceptMapM {α β : Type} (f : α → Except PyErr β) : List α → Except PyErr (List β)
  | [] => .ok []
  | a :: l =>
    match f a with
    | .error e => .error e
    | .ok b =>
      match exceptMapM f l with
      | .error e => .error e
      | .ok bs => .ok (b :: bs)

/-! ## The BIDS filename pattern (reportlets.py lines 268-276)

```
BIDS_NAME = re.compile(
    r'^(.*\/)?'
    '(?P<subject_id>sub-[a-zA-Z0-9]+)'
    '(_(?P<session_id>ses-[a-zA-Z0-9]+))?'
    '(_(?P<task_id>task-[a-zA-Z0-9]+))?'
    '(_(?P<acq_id>acq-[a-zA-Z0-9]+))?'
    '(_(?P<rec_id>rec-[a-zA-Z0-9]+))?'
    '(_(?P<run_id>run-[a-zA-Z0-9]+))?')
```

Because the pattern is anchored with `^` (and `re.MULTILINE` is not set),
`re.search` can only match at position 0.  The leading group `(.*\/)?` is
greedy, so the engine first tries the longest newline-free prefix ending in
`/`, then shorter ones, and finally the empty choice.  Once
`sub-[a-zA-Z0-9]+` matches, the whole pattern matches, since every following
group is optional; each optional group matches exactly when the literal
`_<key>-` is followed by at least one ASCII alphanumeric character, consuming
greedily.  `bidsSearch` below implements exactly this semantics.
-/

/-- `[a-zA-Z0-9]` (ASCII alphanumerics, as in the regex character class). -/
def isAlnumChar (c : Char) : Bool := c.isAlpha || c.isDigit

/-- Strip an explicit literal prefix, returning the remainder on success. -/
def stripPrefixChars : List Char → List Char → Option (List Char)
  | [], s => some s
  | _ :: _, [] => none
  | p :: ps, c :: cs => if p = c then stripPrefixChars ps cs else none

/-- The named groups of a successful `BIDS_NAME.search`, as `groupdict()`
returns them (each entity captured with its key, e.g. `task-rest`). -/
structure BidsMatch where
  subjectId : String
  sessionId : Option String := none
  taskId : Option String := none
  acqId : Option String := none
  recId : Option String := none
  runId : Option String := none
deriving DecidableEq

/-- One optional entity group `(_(?P<g>key-[a-zA-Z0-9]+))?`: on success the
capture is `key-` plus the greedily consumed alphanumeric run. -/
def optGroup (key : List Char) (s : List Char) : Option String × List Char :=
  match stripPrefixChars ('_' :: key) s with
  | none => (none, s)
  | some r =>
    match r.span isAlnumChar with
    | ([], _) => (none, s)
    | (al, rest) => (some ⟨key ++ al⟩, rest)

/-- Try to match the anchored body of the pattern (everything after the
optional directory prefix) at the start of `s`. -/
def bidsTryFrom (s : List Char) : Option BidsMatch :=
  match stripPrefixChars ("sub-".data) s with
  | none => none
  | some r1 =>
    match r1.span isAlnumChar with
    | ([], _) => none
    | (al, r2) =>
      let g1 := optGroup ("ses-".data) r2
      let g2 := optGroup ("task-".data) g1.2
      let g3 := optGroup ("acq-".data) g2.2
      let g4 := optGroup ("rec-".data) g3.2
      let g5 := optGroup ("run-".data) g4.2
      some
        { subjectId := ⟨"sub-".data ++ al⟩
          sessionId := g1.1
          taskId := g2.1
          acqId := g3.1
          recId := g4.1
          runId := g5.1 }

/-- `BIDS_NAME.search(series)`: the greedy `(.*\/)?` prefix is resolved by
trying every candidate start position whose preceding prefix is newline-free
and ends in `/`, longest first, with the empty prefix last. -/
def bidsSearch (s : List Char) : Option BidsMatch :=
  let nn := (s.takeWhile (fun c => c ≠ '\n')).length
  let cands :=
    (((List.range (nn + 1)).filter (fun i => decide (0 < i) && (s.getD (i - 1) ' ' == '/'))).reverse)
      ++ [0]
  cands.findSome? (fun i => bidsTryFrom (s.drop i))

/-- `BIDS_NAME.search(series).groupdict()['task_id'][5:]` (line 301): a failed
search raises `AttributeError` (`None.groupdict()`); a match without a task
entity raises `TypeError` (`None[5:]`); otherwise the `task-` key is sliced
off, leaving the task label. -/
def extractTaskLabel (series : String) : Except PyErr String :=
  match bidsSearch series.data with
  | none => .error .attributeError
  | some m =>
    match m.taskId with
    | none => .error .typeError
    | some t => .ok (pyDropStr t 5)

/-! ## Task run counts (reportlets.py lines 300-314)

`Counter(...)` over the extracted labels followed by `sorted(counts.items())`
yields the list of `(label, occurrence count)` pairs for the distinct labels,
ordered by Python tuple comparison — lexicographically by label (labels are
distinct, so the count never participates in the comparison).
-/

/-- Boolean lexicographic strict comparison on character lists; agrees with
Python string `<` (code-point order, a proper prefix is smaller). -/
def lexLt : List Char → List Char → Bool
  | [], [] => false
  | [], _ :: _ => true
  | _ :: _, [] => false
  | a :: as, b :: bs => if a < b then true else if b < a then false else lexLt as bs

/-- Python tuple `<=` on `(str, int)` pairs, as `sorted` compares the items of
the task counter. -/
def pyPairLe (a b : String × Nat) : Bool :=
  if lexLt a.1.data b.1.data then true
  else if lexLt b.1.data a.1.data then false
  else Nat.ble a.2 b.2

/-- `pyPairLe` as a sorting relation. -/
def pairLe (a b : String × Nat) : Prop := pyPairLe a b = true

instance : DecidableRel pairLe := fun a b => by unfold pairLe; infer_instance

/-- `sorted(Counter(labels).items())`: one `(label, count)` pair per distinct
label, sorted by Python tuple comparison. -/
def taskCountsOf (labels : List String) : List (String × Nat) :=
  List.insertionSort pairLe (labels.dedup.map fun l => (l, labels.count l))

/-- Header of the rendered task list (line 306). -/
def taskHeader : String := "\t\t<ul class=\"elem-desc\">"

/-- Footer of the rendered task list (line 307). -/
def taskFooter : String := "\t\t</ul>"

/-- One `<li>` line of the task list (lines 308-313): the run count is
followed by `run` when it is 1 and `runs` otherwise. -/
def taskLine (taskId : String) (nRuns : Nat) : String :=
  "\t\t\t<li>Task: " ++ taskId ++ " (" ++ Nat.repr nRuns ++ " run"
    ++ (if nRuns = 1 then "" else "s") ++ ")</li>"

/-- The `tasks` fragment (lines 304-314): empty when the counter is empty,
otherwise header, one line per task, and footer, joined with newlines. -/
def tasksSection (labels : List String) : String :=
  if labels.isEmpty then ""
  else
    joinSep "\n"
      ([taskHeader] ++ (taskCountsOf labels).map (fun p => taskLine p.1 p.2) ++ [taskFooter])

/-! ## SubjectSummary (reportlets.py lines 239-325) -/

/-- One entry of the `bold` input: either a single path or a list of paths
(split acquisition). -/
inductive BoldEntry
  | single (path : String)
  | multi (paths : List String)
deriving DecidableEq

/-- The traited inputs of `SubjectSummary` (lines 239-249).  Optional traits
are modelled as `Option`; an `Undefined` trait is `none`. -/
structure SubjectInputs where
  t1w : List String
  t2w : List String
  subjects_dir : Option String
  subject_id : Option String
  bold : Option (List BoldEntry)
  std_spaces : List String
  nstd_spaces : List String
deriving DecidableEq

/-- Line 298: `s[0] if isinstance(s, list) else s`; `[][0]` raises
`IndexError`. -/
def normalizeBoldEntry : BoldEntry → Except PyErr String
  | .single p => .ok p
  | .multi [] => .error .indexError
  | .multi (p :: _) => .ok p

/-- Lines 278-290: FreeSurfer status.  The `ReconAll` wrapper lives in an
external package (smriprep); only its command line is consulted, so the probe
is parametrized by the command line `reconCmdline` that wrapper would report.
`"sub-" + self.inputs.subject_id` raises `TypeError` when `subject_id` is
`Undefined`. -/
def freesurferStatus (subjectsDir subjectId : Option String) (reconCmdline : String) :
    Except PyErr String :=
  match subjectsDir with
  | none => .ok "Not run"
  | some _ =>
    match subjectId with
    | none => .error .typeError
    | some _ =>
      if startsWithStr reconCmdline "echo" then .ok "Pre-existing directory"
      else .ok "Run by fMRIPrep"

/-- Lines 292-294: the T2w annotation, present exactly when the `t2w` list is
non-empty (Python list truthiness). -/
def t2wSegOf (t2w : List String) : String :=
  if t2w.isEmpty then "" else "(+ " ++ Nat.repr t2w.length ++ " T2-weighted)"

/-- `str(Undefined)` as nipype renders it inside `str.format`. -/
def fmtOptStr : Option String → String
  | some s => s
  | none => "<undefined>"

/-- `SUBJECT_TEMPLATE.format(...)` (lines 48-58 and 316-325), with every
field already rendered to a string.  The literal text is split at the
boundaries the containment theorems below cite; `++` is associative, so the
value is the template verbatim. -/
def subjectTemplateFmt (subjectId nT1s t2wSeg nBold tasks stdSpaces nstdSpaces fsStatus :
    String) : String :=
  "\t<ul class=\"elem-desc\">\n\t\t<li>Subject ID: " ++ subjectId
    ++ "</li>\n\t\t<li>" ++ "Structural images: " ++ nT1s ++ " T1-weighted" ++ " " ++ t2wSeg
    ++ "</li>\n\t\t<li>" ++ "Functional series: " ++ nBold ++ "</li>\n" ++ tasks
    ++ "\n\t\t<li>Standard output spaces: " ++ stdSpaces
    ++ "</li>\n\t\t<li>Non-standard output spaces: " ++ nstdSpaces
    ++ "</li>\n\t\t<li>FreeSurfer reconstruction: " ++ fsStatus ++ "</li>\n\t</ul>\n"

/-- `SubjectSummary._generate_segment` (lines 267-325), in source order:
FreeSurfer probe, T2w annotation, bold normalization (an undefined `bold`
becomes `[]`), task label extraction, task section, template fill-in. -/
def subjectGenerateSegment (reconCmdline : String) (inp : SubjectInputs) :
    Except PyErr String :=
  match freesurferStatus inp.subjects_dir inp.subject_id reconCmdline with
  | .error e => .error e
  | .ok fsStatus =>
    match exceptMapM normalizeBoldEntry (inp.bold.getD []) with
    | .error e => .error e
    | .ok boldSeries =>
      match exceptMapM extractTaskLabel boldSeries with
      | .error e => .error e
      | .ok labels =>
        .ok (subjectTemplateFmt (fmtOptStr inp.subject_id) (Nat.repr inp.t1w.length)
          (t2wSegOf inp.t2w) (Nat.repr boldSeries.length) (tasksSection labels)
          (joinSep ", " inp.std_spaces) (joinSep ", " inp.nstd_spaces) fsStatus)

/-! ## SummaryInterface (reportlets.py lines 85-101)

`_run_interface` first renders the segment, then opens `report.html` in the
working directory, writes the segment, and records the path in
`self._results['out_report']`.  An exception raised by the rendering step
therefore escapes before any file is opened.
-/

/-- Observable outcome of one `SummaryInterface._run_interface` call. -/
structure SummaryRunResult where
  /-- Files written, as (path, content) pairs. -/
  filesWritten : List (String × String)
  /-- The `out_report` output field, when set. -/
  outReport : Option String
  /-- The exception terminating the call, when one is raised. -/
  error : Option PyErr
deriving DecidableEq

/-- `SummaryInterface._run_interface` (lines 92-98), parametrized by the
subclass-supplied rendering step. -/
def summaryRunInterface (cwd : String) (segment : Except PyErr String) : SummaryRunResult :=
  match segment with
  | .error e => { filesWritten := [], outReport := none, error := some e }
  | .ok seg =>
    { filesWritten := [(osJoin cwd "report.html", seg)]
      outReport := some (osJoin cwd "report.html")
      error := none }

/-- The base class rendering step (lines 100-101): `raise NotImplementedError`. -/
def summaryBaseGenerateSegment : Except PyErr String := .error .notImplementedError

/-- Observable outcome of `SubjectSummary._run_interface` (lines 262-265):
`subject_id` is copied to the results when defined, then the base
`_run_interface` runs. -/
structure SubjectRunResult where
  subjectIdOut : Option String
  filesWritten : List (String × String)
  outReport : Option String
  error : Option PyErr
deriving DecidableEq

/-- `SubjectSummary._run_interface` (lines 262-265). -/
def subjectRunInterface (reconCmdline : String) (cwd : String) (inp : SubjectInputs) :
    SubjectRunResult :=
  let sidOut := inp.subject_id
  let base := summaryRunInterface cwd (subjectGenerateSegment reconCmdline inp)
  { subjectIdOut := sidOut
    filesWritten := base.filesWritten
    outReport := base.outReport
    error := base.error }

/-! ## AboutSummary (reportlets.py lines 76-82 and 328-342) -/

/-- A broken-down local wall-clock time with UTC offset, the data
`time.strftime` reads.  External to the repository (Python stdlib). -/
structure WallClock where
  year : Nat
  month : Nat
  mday : Nat
  hour : Nat
  minute : Nat
  sec : Nat
  /-- Sign of the UTC offset (`true` renders `+`). -/
  tzNonneg : Bool
  tzHH : Nat
  tzMM : Nat
deriving DecidableEq

/-- Two-digit zero-padded decimal field (faithful to `%m`, `%d`, `%H`, `%M`,
`%S` for values below 100). -/
def pad2 (n : Nat) : String := ⟨[Nat.digitChar (n / 10 % 10), Nat.digitChar (n % 10)]⟩

/-- Four-digit zero-padded decimal field (faithful to `%Y` for years below
10000). -/
def pad4 (n : Nat) : String :=
  ⟨[Nat.digitChar (n / 1000 % 10), Nat.digitChar (n / 100 % 10), Nat.digitChar (n / 10 % 10),
    Nat.digitChar (n % 10)]⟩

/-- Modelled from the spec: `time.strftime('%Y-%m-%d %H:%M:%S %z')` (line
341) is Python stdlib, external to the repository; the spec fixes its output
shape as `YYYY-MM-DD HH:MM:SS ±ZZZZ`. -/
def strftimeAbout (t : WallClock) : String :=
  pad4 t.year ++ "-" ++ pad2 t.month ++ "-" ++ pad2 t.mday ++ " " ++ pad2 t.hour ++ ":"
    ++ pad2 t.minute ++ ":" ++ pad2 t.sec ++ " " ++ (if t.tzNonneg then "+" else "-")
    ++ pad2 t.tzHH ++ pad2 t.tzMM

/-- `ABOUT_TEMPLATE.format(...)` (lines 76-82). -/
def aboutTemplateFmt (version command date : String) : String :=
  "\t<ul>\n\t\t<li>fMRIPrep version: " ++ version
    ++ "</li>\n\t\t<li>fMRIPrep command: <code>" ++ command
    ++ "</code></li>\n\t\t<li>Date preprocessed: " ++ date ++ "</li>\n\t</ul>\n</div>\n"

/-- `AboutSummary._generate_segment` (lines 337-342), parametrized by the
wall-clock time at which it renders. -/
def aboutGenerateSegment (version command : Option String) (now : WallClock) : String :=
  aboutTemplateFmt (fmtOptStr version) (fmtOptStr command) (strftimeAbout now)

/-- Character-class check for one position of the timestamp shape: `D` is a
decimal digit, `S` is a sign, anything else matches itself. -/
def classOk : Char → Char → Bool
  | 'D', c => c.isDigit
  | 'S', c => c = '+' || c = '-'
  | p, c => p = c

/-- The `YYYY-MM-DD HH:MM:SS ±ZZZZ` shape. -/
def tsPattern : String := "DDDD-DD-DD DD:DD:DD SDDDD"

/-- A string has the timestamp shape `YYYY-MM-DD HH:MM:SS ±ZZZZ`. -/
def tsFormatOk (s : String) : Bool :=
  (s.data.length == tsPattern.data.length) && (List.zipWith classOk tsPattern.data s.data).all id

/-! ## MELODICRPT (reportlets.py lines 104-185) -/

/-- The inputs of `MELODICRPT` relevant to its post-run hook: the configured
report path (default `melodic_reportlet.svg`, line 105) and the optional
MELODIC output directory. -/
structure MelodicInputs where
  out_report : String := "melodic_reportlet.svg"
  out_dir : Option String := none
deriving DecidableEq

/-- Observable outcome of `MELODICRPT._post_run_hook` beyond the base class
hook: the `_out_report` attribute (initially `None`, line 130), the files this
module writes itself, and whether `_generate_report` (the external plotting
routine) is invoked. -/
structure MelodicHookResult where
  outReport : Option String
  filesWritten : List (String × String)
  plotCalled : Bool
deriving DecidableEq

/-- Lines 145-148: `_melodic_dir` is `runtime.cwd`, overridden by a defined
`out_dir`, then made absolute. -/
def melodicDirOf (inp : MelodicInputs) (cwd : String) : String :=
  osAbspath cwd (inp.out_dir.getD cwd)

/-- Lines 150-152: the configured `out_report`, made absolute against
`runtime.cwd` when relative. -/
def melodicOutReportAbs (inp : MelodicInputs) (cwd : String) : String :=
  if osIsAbs inp.out_report then inp.out_report
  else osAbspath cwd (osJoin cwd inp.out_report)

/-- The fixed non-convergence notice (line 158). -/
def melodicNoConvergenceNotice : String := "<h4>MELODIC did not converge, no output</h4>"

/-- `MELODICRPT._post_run_hook` (lines 137-164), parametrized by the
filesystem predicate `pathExists` (`os.path.exists`).  The base class hook and
the external plotting routine are delegated collaborators: the record tracks
only this module's own effects. -/
def melodicPostRunHook (generateReport : Bool) (inp : MelodicInputs) (cwd : String)
    (pathExists : String → Bool) : MelodicHookResult :=
  if !generateReport then { outReport := none, filesWritten := [], plotCalled := false }
  else
    let outRep := melodicOutReportAbs inp cwd
    let mix := osJoin (melodicDirOf inp cwd) "melodic_mix"
    if !pathExists mix then
      let fallback := pyReplace outRep ".svg" ".html"
      { outReport := some fallback
        filesWritten := [(fallback, melodicNoConvergenceNotice)]
        plotCalled := false }
    else
      { outReport := some outRep, filesWritten := [], plotCalled := true }

/-- `MELODICRPT._list_outputs` (lines 166-173): the base outputs, plus
`out_report` exactly when `_out_report` has been set. -/
def melodicListOutputs (baseOutputs : List (String × String)) (outReport : Option String) :
    List (String × String) :=
  match outReport with
  | none => baseOutputs
  | some r => baseOutputs ++ [("out_report", r)]

/-! ## ICAAROMARPT (reportlets.py lines 188-236) -/

/-- The steps `ICAAROMARPT._post_run_hook` performs, in order.  Aggregating
the wrapped tool's outputs and the plotting routine are external
collaborators; the events record what is passed to them. -/
inductive AromaEvent
  /-- `self.aggregate_outputs(runtime=runtime)` (line 231), yielding the
  tool's declared output directory. -/
  | aggregateOutputs (outDir : String)
  /-- `plot_melodic_components(...)` (lines 221-228). -/
  | plotComponents (melodicDir inFile outFile noiseFile : String)
deriving DecidableEq

/-- The `ICAAROMARPT` inputs forwarded to the plotting routine. -/
structure AromaInputs where
  melodic_dir : String
  in_file : String
  out_report : String := "ica_aroma_reportlet.svg"
deriving DecidableEq

/-- Line 232: `os.path.join(outputs.out_dir, 'classified_motion_ICs.txt')`. -/
def aromaNoiseComponentsFile (outDir : String) : String :=
  osJoin outDir "classified_motion_ICs.txt"

/-- `ICAAROMARPT._post_run_hook` (lines 230-236): aggregate the wrapped
tool's outputs, derive the classification file path from the aggregated
`out_dir`, then let the inherited reporting hook call `_generate_report`
(modelled from the spec: the nireports base class, external to this
repository, invokes the plotting step exactly when report generation is
enabled). -/
def aromaPostRunHook (generateReport : Bool) (aggregatedOutDir : String) (inp : AromaInputs) :
    List AromaEvent :=
  [.aggregateOutputs aggregatedOutDir]
    ++ (if generateReport then
          [.plotComponents inp.melodic_dir inp.in_file inp.out_report
            (aromaNoiseComponentsFile aggregatedOutDir)]
        else [])

/-! ## Order lemmas for the task sort -/

theorem lexLt_trans : ∀ {a b c : List Char},
    lexLt a b = true → lexLt b c = true → lexLt a c = true := by
  intro a
  induction a with
  | nil =>
    intro b c hab hbc
    cases b with
    | nil => simp [lexLt] at hab
    | cons y bs =>
      cases c with
      | nil => simp [lexLt] at hbc
      | cons z cs => simp [lexLt]
  | cons x as ih =>
    intro b c hab hbc
    cases b with
    | nil => simp [lexLt] at hab
    | cons y bs =>
      cases c with
      | nil => simp [lexLt] at hbc
      | cons z cs =>
        simp only [lexLt] at hab hbc ⊢
        rcases lt_trichotomy x y with h1 | h1 | h1
        · rcases lt_trichotomy y z with h2 | h2 | h2
          · simp [lt_trans h1 h2]
          · subst h2; simp [h1]
          · rw [if_neg (lt_asymm h2), if_pos h2] at hbc; exact absurd hbc (by simp)
        · subst h1
          rcases lt_trichotomy x z with h2 | h2 | h2
          · simp [h2]
          · subst h2
            rw [if_neg (lt_irrefl x), if_neg (lt_irrefl x)] at hab hbc ⊢
            exact ih hab hbc
          · rw [if_neg (lt_asymm h2), if_pos h2] at hbc; exact absurd hbc (by simp)
        · rw [if_neg (lt_asymm h1), if_pos h1] at hab; exact absurd hab (by simp)

theorem lexLt_eq_of_not : ∀ {a b : List Char},
    lexLt a b = false → lexLt b a = false → a = b := by
  intro a
  induction a with
  | nil =>
    intro b hab _
    cases b with
    | nil => rfl
    | cons y bs => simp [lexLt] at hab
  | cons x as ih =>
    intro b hab hba
    cases b with
    | nil => simp [lexLt] at hba
    | cons y bs =>
      simp only [lexLt] at hab hba
      rcases lt_trichotomy x y with h1 | h1 | h1
      · rw [if_pos h1] at hab; exact absurd hab (by simp)
      · subst h1
        rw [if_neg (lt_irrefl x), if_neg (lt_irrefl x)] at hab hba
        rw [ih hab hba]
      · rw [if_pos h1] at hba; exact absurd hba (by simp)

instance : IsTotal (String × Nat) pairLe := by
  constructor
  intro a b
  unfold pairLe pyPairLe
  by_cases l1 : lexLt a.1.data b.1.data
  · left; simp [l1]
  · by_cases l2 : lexLt b.1.data a.1.data
    · right; simp [l2]
    · rcases Nat.le_total a.2 b.2 with h | h
      · left
        simp only [Bool.not_eq_true] at l1 l2
        simp [l1, l2, Nat.ble_eq, h]
      · right
        simp only [Bool.not_eq_true] at l1 l2
        simp [l1, l2, Nat.ble_eq, h]

instance : IsTrans (String × Nat) pairLe := by
  constructor
  intro a b c hab hbc
  unfold pairLe pyPairLe at hab hbc ⊢
  by_cases l1 : lexLt a.1.data b.1.data
  · by_cases l2 : lexLt b.1.data c.1.data
    · simp [lexLt_trans l1 l2]
    · by_cases l3 : lexLt c.1.data b.1.data
      · rw [if_neg (by simp [l2]), if_pos l3] at hbc; exact absurd hbc (by simp)
      · simp only [Bool.not_eq_true] at l2 l3
        have hbceq := lexLt_eq_of_not l2 l3
        rw [← hbceq]
        simp [l1]
  · by_cases l1r : lexLt b.1.data a.1.data
    · rw [if_neg (by simp [l1]), if_pos l1r] at hab; exact absurd hab (by simp)
    · simp only [Bool.not_eq_true] at l1 l1r
      have habeq := lexLt_eq_of_not l1 l1r
      rw [habeq]
      by_cases l2 : lexLt b.1.data c.1.data
      · simp [l2]
      · by_cases l3 : lexLt c.1.data b.1.data
        · rw [if_neg (by simp [l2]), if_pos l3] at hbc; exact absurd hbc (by simp)
        · simp only [Bool.not_eq_true] at l2 l3
          rw [if_neg (by simp [l2]), if_neg (by simp [l3])] at hbc ⊢
          rw [if_neg (by simp [l1]), if_neg (by simp [l1r])] at hab
          simp only [Nat.ble_eq] at hab hbc ⊢
          exact le_trans hab hbc

/-! ## exceptMapM lemmas -/

theorem exceptMapM_error_of_mem {α β : Type} (f : α → Except PyErr β) :
    ∀ {l : List α} {x : α} {e : PyErr}, x ∈ l → f x = .error e →
      ∃ e2, exceptMapM f l = .error e2 := by
  intro l
  induction l with
  | nil => intro x e hx _; cases hx
  | cons a t ih =>
    intro x e hx hfx
    rcases List.mem_cons.mp hx with h | h
    · subst h
      refine ⟨e, ?_⟩
      unfold exceptMapM
      rw [hfx]
    · unfold exceptMapM
      cases hfa : f a with
      | error e1 => exact ⟨e1, rfl⟩
      | ok b =>
        rcases ih h hfx with ⟨e2, he2⟩
        rw [he2]
        exact ⟨e2, rfl⟩

theorem exceptMapM_ok_all {α β : Type} (f : α → Except PyErr β) (g : α → β) :
    ∀ {l : List α}, (∀ x ∈ l, f x = .ok (g x)) →
      exceptMapM f l = .ok (l.map g) := by
  intro l
  induction l with
  | nil => intro _; rfl
  | cons a t ih =>
    intro h
    unfold exceptMapM
    rw [h a (List.mem_cons_self a t), ih (fun x hx => h x (List.mem_cons_of_mem a hx))]
    rfl

/-! ## Containment helpers -/

theorem strContains_intro (p t q s : String) (h : s = p ++ t ++ q) : strContains s t := by
  unfold strContains
  refine ⟨p.data, q.data, ?_⟩
  rw [h]
  simp

theorem strEndsWith_intro (q t s : String) (h : s = q ++ t) : strEndsWith s t := by
  unfold strEndsWith
  refine ⟨q.data, ?_⟩
  rw [h]
  simp

theorem strContains_self (s : String) : strContains s s := List.infix_refl _

theorem strContains_extend_left (a s t : String) (h : strContains s t) :
    strContains (a ++ s) t := by
  unfold strContains at h ⊢
  rcases h with ⟨p, q, hpq⟩
  refine ⟨a.data ++ p, q, ?_⟩
  have hd : (a ++ s).data = a.data ++ s.data := by simp
  rw [hd, ← hpq]
  simp

theorem strContains_extend_right (s a t : String) (h : strContains s t) :
    strContains (s ++ a) t := by
  unfold strContains at h ⊢
  rcases h with ⟨p, q, hpq⟩
  refine ⟨p, q ++ a.data, ?_⟩
  have hd : (s ++ a).data = s.data ++ a.data := by simp
  rw [hd, ← hpq]
  simp

theorem joinSep_contains_mem (sep : String) :
    ∀ {xs : List String} {x : String}, x ∈ xs → strContains (joinSep sep xs) x := by
  intro xs
  induction xs with
  | nil => intro x hx; cases hx
  | cons a t ih =>
    intro x hx
    cases t with
    | nil =>
      rcases List.mem_cons.mp hx with h | h
      · subst h
        exact strContains_self x
      · cases h
    | cons b t2 =>
      rcases List.mem_cons.mp hx with h | h
      · subst h
        show strContains (x ++ sep ++ joinSep sep (b :: t2)) x
        exact strContains_extend_right _ _ _ (strContains_extend_right _ _ _ (strContains_self x))
      · have hrest := ih h
        show strContains (a ++ sep ++ joinSep sep (b :: t2)) x
        rw [String.append_assoc]
        exact strContains_extend_left a _ x (strContains_extend_left sep _ x hrest)

/-! ## Containment facts about the subject template -/

theorem subjectTemplateFmt_contains_sid (a b c d e f g h : String) :
    strContains (subjectTemplateFmt a b c d e f g h) a := by
  apply strContains_intro "\t<ul class=\"elem-desc\">\n\t\t<li>Subject ID: " a
    ("</li>\n\t\t<li>" ++ "Structural images: " ++ b ++ " T1-weighted" ++ " " ++ c
      ++ "</li>\n\t\t<li>" ++ "Functional series: " ++ d ++ "</li>\n" ++ e
      ++ "\n\t\t<li>Standard output spaces: " ++ f
      ++ "</li>\n\t\t<li>Non-standard output spaces: " ++ g
      ++ "</li>\n\t\t<li>FreeSurfer reconstruction: " ++ h ++ "</li>\n\t</ul>\n")
  simp only [subjectTemplateFmt, String.append_assoc]

theorem subjectTemplateFmt_contains_structural (a b c d e f g h : String) :
    strContains (subjectTemplateFmt a b c d e f g h)
      ("Structural images: " ++ b ++ " T1-weighted") := by
  apply strContains_intro
    ("\t<ul class=\"elem-desc\">\n\t\t<li>Subject ID: " ++ a ++ "</li>\n\t\t<li>")
    ("Structural images: " ++ b ++ " T1-weighted")
    (" " ++ c ++ "</li>\n\t\t<li>" ++ "Functional series: " ++ d ++ "</li>\n" ++ e
      ++ "\n\t\t<li>Standard output spaces: " ++ f
      ++ "</li>\n\t\t<li>Non-standard output spaces: " ++ g
      ++ "</li>\n\t\t<li>FreeSurfer reconstruction: " ++ h ++ "</li>\n\t</ul>\n")
  simp only [subjectTemplateFmt, String.append_assoc]

theorem subjectTemplateFmt_contains_t2wSeg (a b c d e f g h : String) :
    strContains (subjectTemplateFmt a b c d e f g h) c := by
  apply strContains_intro
    ("\t<ul class=\"elem-desc\">\n\t\t<li>Subject ID: " ++ a ++ "</li>\n\t\t<li>"
      ++ "Structural images: " ++ b ++ " T1-weighted" ++ " ")
    c
    ("</li>\n\t\t<li>" ++ "Functional series: " ++ d ++ "</li>\n" ++ e
      ++ "\n\t\t<li>Standard output spaces: " ++ f
      ++ "</li>\n\t\t<li>Non-standard output spaces: " ++ g
      ++ "</li>\n\t\t<li>FreeSurfer reconstruction: " ++ h ++ "</li>\n\t</ul>\n")
  simp only [subjectTemplateFmt, String.append_assoc]

theorem subjectTemplateFmt_contains_functional (a b c d e f g h : String) :
    strContains (subjectTemplateFmt a b c d e f g h) ("Functional series: " ++ d) := by
  apply strContains_intro
    ("\t<ul class=\"elem-desc\">\n\t\t<li>Subject ID: " ++ a ++ "</li>\n\t\t<li>"
      ++ "Structural images: " ++ b ++ " T1-weighted" ++ " " ++ c ++ "</li>\n\t\t<li>")
    ("Functional series: " ++ d)
    ("</li>\n" ++ e ++ "\n\t\t<li>Standard output spaces: " ++ f
      ++ "</li>\n\t\t<li>Non-standard output spaces: " ++ g
      ++ "</li>\n\t\t<li>FreeSurfer reconstruction: " ++ h ++ "</li>\n\t</ul>\n")
  simp only [subjectTemplateFmt, String.append_assoc]

theorem subjectTemplateFmt_contains_fsStatus (a b c d e f g h : String) :
    strContains (subjectTemplateFmt a b c d e f g h) h := by
  apply strContains_intro
    ("\t<ul class=\"elem-desc\">\n\t\t<li>Subject ID: " ++ a ++ "</li>\n\t\t<li>"
      ++ "Structural images: " ++ b ++ " T1-weighted" ++ " " ++ c ++ "</li>\n\t\t<li>"
      ++ "Functional series: " ++ d ++ "</li>\n" ++ e
      ++ "\n\t\t<li>Standard output spaces: " ++ f
      ++ "</li>\n\t\t<li>Non-standard output spaces: " ++ g
      ++ "</li>\n\t\t<li>FreeSurfer reconstruction: ")
    h
    "</li>\n\t</ul>\n"
  simp only [subjectTemplateFmt, String.append_assoc]

theorem pairLe_keyLt_of_ne (p q : String × Nat) (h1 : pairLe p q) (h2 : p.1 ≠ q.1) :
    lexLt p.1.data q.1.data = true := by
  unfold pairLe pyPairLe at h1
  by_cases l1 : lexLt p.1.data q.1.data
  · exact l1
  · by_cases l2 : lexLt q.1.data p.1.data
    · rw [if_neg (by simp [l1]), if_pos l2] at h1
      exact absurd h1 (by simp)
    · exact absurd (String.ext (lexLt_eq_of_not (by simpa using l1) (by simpa using l2))) h2

/-- C1: for every list of functional-series filenames whose task labels all
parse, the rendered tasks section has exactly one entry per distinct task
label (the entry keys are exactly the distinct labels, without duplicates),
entries are ordered lexicographically by label, each entry carries the
label's occurrence count, the section string contains every rendered entry,
a count of 1 renders with singular `run` and any other count with plural
`runs`, the section is empty when there are no functional series, two
`task-rest` series yield exactly the single entry `rest (2 runs)`, and one
`task-motor` series yields `motor (1 run)`. -/
theorem subjectSummary_tasks_spec (bold labels : List String)
    (_hlabels : exceptMapM extractTaskLabel bold = .ok labels) :
    ((taskCountsOf labels).map Prod.fst).Nodup
    ∧ (∀ l, l ∈ (taskCountsOf labels).map Prod.fst ↔ l ∈ labels)
    ∧ ((taskCountsOf labels).map Prod.fst).Pairwise (fun x y => lexLt x.data y.data = true)
    ∧ (∀ p ∈ taskCountsOf labels, p.2 = labels.count p.1)
    ∧ (∀ p ∈ taskCountsOf labels, strContains (tasksSection labels) (taskLine p.1 p.2))
    ∧ (∀ p ∈ taskCountsOf labels, p.2 = 1 →
        taskLine p.1 p.2 = "\t\t\t<li>Task: " ++ p.1 ++ " (1 run)</li>")
    ∧ (∀ p ∈ taskCountsOf labels, p.2 ≠ 1 →
        taskLine p.1 p.2 = "\t\t\t<li>Task: " ++ p.1 ++ " (" ++ Nat.repr p.2 ++ " runs)</li>")
    ∧ (labels = [] → tasksSection labels = "")
    ∧ exceptMapM extractTaskLabel
        ["sub-01_task-rest_run-1_bold.nii.gz", "sub-01_task-rest_run-2_bold.nii.gz"]
        = .ok ["rest", "rest"]
    ∧ tasksSection ["rest", "rest"]
        = "\t\t<ul class=\"elem-desc\">\n\t\t\t<li>Task: rest (2 runs)</li>\n\t\t</ul>"
    ∧ exceptMapM extractTaskLabel ["sub-01_task-motor_bold.nii.gz"] = .ok ["motor"]
    ∧ tasksSection ["motor"]
        = "\t\t<ul class=\"elem-desc\">\n\t\t\t<li>Task: motor (1 run)</li>\n\t\t</ul>" := by
  have hperm := List.perm_insertionSort pairLe (labels.dedup.map fun l => (l, labels.count l))
  have hK : ((taskCountsOf labels).map Prod.fst).Perm labels.dedup := by
    have h1 := hperm.map Prod.fst
    rw [List.map_map] at h1
    have h2 : (Prod.fst ∘ fun l : String => (l, labels.count l)) = fun l => l := rfl
    rw [h2, List.map_id'] at h1
    exact h1
  have hnodup : ((taskCountsOf labels).map Prod.fst).Nodup :=
    hK.nodup_iff.mpr (List.nodup_dedup _)
  have hsorted : List.Sorted pairLe (taskCountsOf labels) :=
    List.sorted_insertionSort pairLe _
  refine ⟨hnodup, ?_, ?_, ?_, ?_, ?_, ?_, ?_, by decide, by decide, by decide, by decide⟩
  · intro l
    exact hK.mem_iff.trans List.mem_dedup
  · have hnd : (taskCountsOf labels).Pairwise (fun p q => p.1 ≠ q.1) :=
      List.pairwise_map.mp hnodup
    have hcomb := List.Pairwise.and hsorted hnd
    exact List.pairwise_map.mpr (hcomb.imp fun h => pairLe_keyLt_of_ne _ _ h.1 h.2)
  · intro p hp
    have hmem : p ∈ labels.dedup.map fun l => (l, labels.count l) := hperm.mem_iff.mp hp
    rcases List.mem_map.mp hmem with ⟨l, _, hlp⟩
    rw [← hlp]
  · intro p hp
    cases hl : labels with
    | nil =>
      rw [hl] at hp
      rw [show taskCountsOf [] = [] from rfl] at hp
      cases hp
    | cons x xs =>
      rw [hl] at hp
      show strContains (tasksSection (x :: xs)) (taskLine p.1 p.2)
      have hr : tasksSection (x :: xs)
          = joinSep "\n" ([taskHeader]
              ++ (taskCountsOf (x :: xs)).map (fun q => taskLine q.1 q.2) ++ [taskFooter]) := by
        simp [tasksSection]
      rw [hr]
      apply joinSep_contains_mem
      exact List.mem_append.mpr (Or.inl (List.mem_append.mpr
        (Or.inr (List.mem_map_of_mem _ hp))))
  · intro p _ h1
    unfold taskLine
    rw [h1]
    have hif : (if (1 : Nat) = 1 then "" else "s") = "" := by decide
    rw [hif]
    simp only [String.append_assoc]
    exact congrArg (fun t => "\t\t\t<li>Task: " ++ (p.1 ++ t)) (by decide)
  · intro p _ h1
    unfold taskLine
    rw [if_neg h1]
    simp only [String.append_assoc]
    exact congrArg (fun t => "\t\t\t<li>Task: " ++ (p.1 ++ (" (" ++ (Nat.repr p.2 ++ t))))
      (by decide)
  · intro h
    rw [h]
    decide

/-- Witness for C1 at the spec's two `task-rest` series. -/
theorem subjectSummary_tasks_spec_witness :
    ((taskCountsOf ["rest", "rest"]).map Prod.fst).Nodup :=
  (subjectSummary_tasks_spec
    ["sub-01_task-rest_run-1_bold.nii.gz", "sub-01_task-rest_run-2_bold.nii.gz"]
    ["rest", "rest"] (by decide)).1

theorem exceptMapM_ok_length {α β : Type} (f : α → Except PyErr β) :
    ∀ {l : List α} {ys : List β}, exceptMapM f l = .ok ys → ys.length = l.length := by
  intro l
  induction l with
  | nil =>
    intro ys h
    unfold exceptMapM at h
    injection h with h2
    rw [← h2]
    rfl
  | cons a t ih =>
    intro ys h
    unfold exceptMapM at h
    cases hfa : f a with
    | error e => rw [hfa] at h; exact absurd h (by simp)
    | ok b =>
      rw [hfa] at h
      cases hrest : exceptMapM f t with
      | error e => rw [hrest] at h; exact absurd h (by simp)
      | ok bs =>
        rw [hrest] at h
        injection h with h2
        rw [← h2]
        simp [ih hrest]

theorem strContains_decomp (s t : String) (h : strContains s t) :
    ∃ p q, s = p ++ t ++ q := by
  unfold strContains at h
  rcases h with ⟨p, q, hpq⟩
  refine ⟨⟨p⟩, ⟨q⟩, String.ext ?_⟩
  rw [← hpq]
  simp

/-- First element of a `bold` entry, total on the entries that normalize
without an `IndexError`. -/
def boldFirst : BoldEntry → String
  | .single p => p
  | .multi [] => ""
  | .multi (p :: _) => p

/-- C2: for every valid input on which the segment renders, the HTML contains
the subject id verbatim, the T1-weighted count equals the length of the
`t1w` input, the T2-weighted annotation field is `(+ N T2-weighted)` with
`N = |t2w|` exactly when `t2w` is non-empty and is empty text otherwise, the
functional-series count equals the number of `bold` entries, an undefined
`bold` input behaves as the empty list, and replacing every list-valued bold
entry by its first element leaves the rendered output unchanged. -/
theorem subjectSummary_counts_spec (reconCmdline : String) (inp : SubjectInputs)
    (sid seg : String)
    (hsid : inp.subject_id = some sid)
    (hok : subjectGenerateSegment reconCmdline inp = .ok seg) :
    strContains seg sid
    ∧ strContains seg ("Structural images: " ++ Nat.repr inp.t1w.length ++ " T1-weighted")
    ∧ (∃ p q, seg = p ++ t2wSegOf inp.t2w ++ q)
    ∧ (inp.t2w ≠ [] → t2wSegOf inp.t2w = "(+ " ++ Nat.repr inp.t2w.length ++ " T2-weighted)")
    ∧ (inp.t2w = [] → t2wSegOf inp.t2w = "")
    ∧ strContains seg ("Functional series: " ++ Nat.repr (inp.bold.getD []).length)
    ∧ subjectGenerateSegment reconCmdline { inp with bold := none }
        = subjectGenerateSegment reconCmdline { inp with bold := some [] }
    ∧ (∀ entries : List BoldEntry,
        (∀ e ∈ entries, normalizeBoldEntry e = .ok (boldFirst e)) →
        subjectGenerateSegment reconCmdline { inp with bold := some entries }
          = subjectGenerateSegment reconCmdline
              { inp with bold := some (entries.map fun e => BoldEntry.single (boldFirst e)) }) := by
  unfold subjectGenerateSegment at hok
  split at hok
  · exact absurd hok (by simp)
  · split at hok
    · exact absurd hok (by simp)
    · rename_i boldSeries hnorm
      split at hok
      · exact absurd hok (by simp)
      · injection hok with hseg
        have hlen : boldSeries.length = (inp.bold.getD []).length :=
          exceptMapM_ok_length normalizeBoldEntry hnorm
        subst hseg
        rw [hsid]
        refine ⟨?_, ?_, ?_, ?_, ?_, ?_, ?_, ?_⟩
        · exact subjectTemplateFmt_contains_sid (fmtOptStr (some sid)) _ _ _ _ _ _ _
        · exact subjectTemplateFmt_contains_structural _ _ _ _ _ _ _ _
        · exact strContains_decomp _ _ (subjectTemplateFmt_contains_t2wSeg _ _ _ _ _ _ _ _)
        · intro h
          cases hw : inp.t2w with
          | nil => exact absurd hw h
          | cons a t =>
            show t2wSegOf (a :: t) = "(+ " ++ Nat.repr ((a :: t) : List String).length
              ++ " T2-weighted)"
            unfold t2wSegOf
            rw [if_neg (by simp)]
        · intro h
          rw [h]
          decide
        · rw [← hlen]
          exact subjectTemplateFmt_contains_functional _ _ _ _ _ _ _ _
        · rfl
        · intro entries hne
          have e1 : exceptMapM normalizeBoldEntry entries = .ok (entries.map boldFirst) :=
            exceptMapM_ok_all _ _ hne
          have e2 : exceptMapM normalizeBoldEntry
              (entries.map fun e => BoldEntry.single (boldFirst e))
              = .ok ((entries.map fun e => BoldEntry.single (boldFirst e)).map boldFirst) :=
            exceptMapM_ok_all _ _ (by
              intro x hx
              rcases List.mem_map.mp hx with ⟨e2, _, rfl⟩
              rfl)
          have e3 : (entries.map fun e => BoldEntry.single (boldFirst e)).map boldFirst
              = entries.map boldFirst := by
            rw [List.map_map]
            rfl
          unfold subjectGenerateSegment
          simp only [Option.getD_some]
          rw [e1, e2, e3]

set_option maxRecDepth 4000 in
/-- Witness for C2 at a concrete subject with one T1w image. -/
theorem subjectSummary_counts_spec_witness :
    strContains
      "\t<ul class=\"elem-desc\">\n\t\t<li>Subject ID: 01</li>\n\t\t<li>Structural images: 1 T1-weighted </li>\n\t\t<li>Functional series: 0</li>\n\n\t\t<li>Standard output spaces: </li>\n\t\t<li>Non-standard output spaces: </li>\n\t\t<li>FreeSurfer reconstruction: Not run</li>\n\t</ul>\n"
      "01" :=
  (subjectSummary_counts_spec "recon-all" ⟨["/t1.nii"], [], none, some "01", none, [], []⟩
    "01" _ rfl (by decide)).1

/-- C3: if any normalized functional-series name fails the naming pattern —
`AttributeError` for a name with no match at all, `TypeError` for a matching
name carrying no task label — rendering the segment raises, and the enclosing
run writes no report file and sets no output (no partial extraction). -/
theorem subjectSummary_bad_bold_name_fatal (reconCmdline cwd : String)
    (inp : SubjectInputs) (series : List String) (s : String) (pe : PyErr)
    (hnorm : exceptMapM normalizeBoldEntry (inp.bold.getD []) = .ok series)
    (hs : s ∈ series)
    (hbad : extractTaskLabel s = .error pe) :
    (∃ e, subjectGenerateSegment reconCmdline inp = .error e)
    ∧ (subjectRunInterface reconCmdline cwd inp).filesWritten = []
    ∧ (subjectRunInterface reconCmdline cwd inp).outReport = none
    ∧ (∃ e, (subjectRunInterface reconCmdline cwd inp).error = some e)
    ∧ extractTaskLabel "sub-01_bold.nii.gz" = .error .typeError
    ∧ extractTaskLabel "nonconforming_name.nii.gz" = .error .attributeError := by
  rcases exceptMapM_error_of_mem extractTaskLabel hs hbad with ⟨e2, he2⟩
  have hseg : ∃ e, subjectGenerateSegment reconCmdline inp = .error e := by
    cases hfs : freesurferStatus inp.subjects_dir inp.subject_id reconCmdline with
    | error e =>
      refine ⟨e, ?_⟩
      unfold subjectGenerateSegment
      rw [hfs]
    | ok fsv =>
      refine ⟨e2, ?_⟩
      unfold subjectGenerateSegment
      rw [hfs]
      simp only [hnorm, he2]
  rcases hseg with ⟨e, he⟩
  refine ⟨⟨e, he⟩, ?_, ?_, ⟨e, ?_⟩, by decide, by decide⟩
  · simp [subjectRunInterface, summaryRunInterface, he]
  · simp [subjectRunInterface, summaryRunInterface, he]
  · simp [subjectRunInterface, summaryRunInterface, he]

/-- Witness for C3 at a name that matches no part of the pattern. -/
theorem subjectSummary_bad_bold_name_fatal_witness :
    (subjectRunInterface "recon-all" "/wd"
      ⟨["/t1.nii"], [], none, some "01", some [BoldEntry.single "badname.nii"], [],
        []⟩).filesWritten = [] :=
  (subjectSummary_bad_bold_name_fatal "recon-all" "/wd" _ ["badname.nii"] "badname.nii"
    .attributeError (by decide) (by decide) (by decide)).2.1

/-- C9: `SummaryInterface._run_interface` renders the segment before touching
the filesystem: on success it writes exactly one file, `report.html` in the
working directory, with the rendered segment as content, and sets
`out_report` to that path; when rendering raises, no file is written and no
output is set; the base class rendering step raises `NotImplementedError`,
so a direct base-class run writes nothing. -/
theorem summaryInterface_run_spec (cwd seg : String) (e : PyErr) :
    (summaryRunInterface cwd (.ok seg)).filesWritten = [(osJoin cwd "report.html", seg)]
    ∧ (summaryRunInterface cwd (.ok seg)).outReport = some (osJoin cwd "report.html")
    ∧ (summaryRunInterface cwd (.ok seg)).error = none
    ∧ (summaryRunInterface cwd (.error e)).filesWritten = []
    ∧ (summaryRunInterface cwd (.error e)).outReport = none
    ∧ (summaryRunInterface cwd (.error e)).error = some e
    ∧ summaryBaseGenerateSegment = .error .notImplementedError
    ∧ (summaryRunInterface cwd summaryBaseGenerateSegment).filesWritten = []
    ∧ (summaryRunInterface cwd summaryBaseGenerateSegment).error
        = some .notImplementedError :=
  ⟨rfl, rfl, rfl, rfl, rfl, rfl, rfl, rfl, rfl⟩

/-- C10: `SubjectSummary` relays a defined `subject_id` input verbatim to the
`subject_id` output and leaves the output unset when the input is undefined,
while the base run still writes the report when rendering succeeds. -/
theorem subjectSummary_subject_id_passthrough (reconCmdline cwd : String)
    (inp : SubjectInputs) (seg : String)
    (hok : subjectGenerateSegment reconCmdline inp = .ok seg) :
    (subjectRunInterface reconCmdline cwd inp).subjectIdOut = inp.subject_id
    ∧ (∀ sid, inp.subject_id = some sid →
        (subjectRunInterface reconCmdline cwd inp).subjectIdOut = some sid)
    ∧ (inp.subject_id = none →
        (subjectRunInterface reconCmdline cwd inp).subjectIdOut = none)
    ∧ (subjectRunInterface reconCmdline cwd inp).filesWritten
        = [(osJoin cwd "report.html", seg)]
    ∧ (subjectRunInterface reconCmdline cwd inp).outReport = some (osJoin cwd "report.html")
    ∧ (subjectRunInterface reconCmdline cwd inp).error = none := by
  refine ⟨rfl, ?_, ?_, ?_, ?_, ?_⟩
  · intro sid h
    simp [subjectRunInterface, h]
  · intro h
    simp [subjectRunInterface, h]
  · simp [subjectRunInterface, summaryRunInterface, hok]
  · simp [subjectRunInterface, summaryRunInterface, hok]
  · simp [subjectRunInterface, summaryRunInterface, hok]

set_option maxRecDepth 4000 in
/-- Witness for C10 at a subject with an undefined `subject_id`. -/
theorem subjectSummary_subject_id_passthrough_witness :
    (subjectRunInterface "recon-all" "/wd"
      ⟨["/t1.nii"], [], none, none, none, [], []⟩).subjectIdOut = none :=
  (subjectSummary_subject_id_passthrough "recon-all" "/wd"
    ⟨["/t1.nii"], [], none, none, none, [], []⟩
    "\t<ul class=\"elem-desc\">\n\t\t<li>Subject ID: <undefined></li>\n\t\t<li>Structural images: 1 T1-weighted </li>\n\t\t<li>Functional series: 0</li>\n\n\t\t<li>Standard output spaces: </li>\n\t\t<li>Non-standard output spaces: </li>\n\t\t<li>FreeSurfer reconstruction: Not run</li>\n\t</ul>\n"
    (by decide)).2.2.1 rfl

set_option maxRecDepth 8000 in
/-- C4 counterexample: with a subjects directory supplied and a wrapper
command line that would really execute, the rendered segment announces
`Run by fMRIPrep` and does not contain the string `Run by pipeline`
anywhere, so the third state is not embedded under the label the claim
gives. -/
theorem subjectSummary_recon_label_counterexample :
    freesurferStatus (some "/fs") (some "01") "recon-all -i /t1.nii" = .ok "Run by fMRIPrep"
    ∧ subjectGenerateSegment "recon-all -i /t1.nii"
        ⟨["/t1.nii"], [], some "/fs", some "01", none, [], []⟩
      = .ok "\t<ul class=\"elem-desc\">\n\t\t<li>Subject ID: 01</li>\n\t\t<li>Structural images: 1 T1-weighted </li>\n\t\t<li>Functional series: 0</li>\n\n\t\t<li>Standard output spaces: </li>\n\t\t<li>Non-standard output spaces: </li>\n\t\t<li>FreeSurfer reconstruction: Run by fMRIPrep</li>\n\t</ul>\n"
    ∧ strContains
        "\t<ul class=\"elem-desc\">\n\t\t<li>Subject ID: 01</li>\n\t\t<li>Structural images: 1 T1-weighted </li>\n\t\t<li>Functional series: 0</li>\n\n\t\t<li>Standard output spaces: </li>\n\t\t<li>Non-standard output spaces: </li>\n\t\t<li>FreeSurfer reconstruction: Run by fMRIPrep</li>\n\t</ul>\n"
        "Run by fMRIPrep"
    ∧ ¬ strContains
        "\t<ul class=\"elem-desc\">\n\t\t<li>Subject ID: 01</li>\n\t\t<li>Structural images: 1 T1-weighted </li>\n\t\t<li>Functional series: 0</li>\n\n\t\t<li>Standard output spaces: </li>\n\t\t<li>Non-standard output spaces: </li>\n\t\t<li>FreeSurfer reconstruction: Run by fMRIPrep</li>\n\t</ul>\n"
        "Run by pipeline" := by
  refine ⟨by decide, by decide, by decide, by decide⟩

/-- C4 amended: the FreeSurfer status takes exactly three values — `Not run`
when no subjects directory is supplied, `Pre-existing directory` when the
`ReconAll` wrapper command line indicates a no-op (starts with `echo`), and
`Run by fMRIPrep` (not `Run by pipeline`) when it would really execute — and
the rendered segment embeds the computed status string. -/
theorem subjectSummary_recon_status_amended (reconCmdline : String) (inp : SubjectInputs)
    (fsv seg : String)
    (hfs : freesurferStatus inp.subjects_dir inp.subject_id reconCmdline = .ok fsv)
    (hok : subjectGenerateSegment reconCmdline inp = .ok seg) :
    (fsv = "Not run" ∨ fsv = "Pre-existing directory" ∨ fsv = "Run by fMRIPrep")
    ∧ (inp.subjects_dir = none ↔ fsv = "Not run")
    ∧ (∀ d, inp.subjects_dir = some d →
        (fsv = "Pre-existing directory" ↔ startsWithStr reconCmdline "echo" = true))
    ∧ strContains seg fsv := by
  have hcontains : strContains seg fsv := by
    unfold subjectGenerateSegment at hok
    split at hok
    · exact absurd hok (by simp)
    · rename_i fsStatus heq
      split at hok
      · exact absurd hok (by simp)
      · split at hok
        · exact absurd hok (by simp)
        · injection hok with hseg
          subst hseg
          have hv : fsv = fsStatus := by
            rw [hfs] at heq
            injection heq
          rw [hv]
          exact subjectTemplateFmt_contains_fsStatus _ _ _ _ _ _ _ _
  unfold freesurferStatus at hfs
  cases hd : inp.subjects_dir with
  | none =>
    rw [hd] at hfs
    simp only [] at hfs
    injection hfs with h1
    exact ⟨Or.inl h1.symm, ⟨fun _ => h1.symm, fun _ => rfl⟩,
      fun d hdd => absurd hdd (by simp), hcontains⟩
  | some d0 =>
    rw [hd] at hfs
    cases hid : inp.subject_id with
    | none =>
      rw [hid] at hfs
      exact absurd hfs (by simp)
    | some sid =>
      rw [hid] at hfs
      by_cases hecho : startsWithStr reconCmdline "echo" = true
      · rw [if_pos hecho] at hfs
        injection hfs with h1
        refine ⟨Or.inr (Or.inl h1.symm), ?_, ?_, hcontains⟩
        · constructor
          · intro hn; exact absurd hn (by simp)
          · intro hfsv
            rw [← h1] at hfsv
            exact absurd hfsv (by decide)
        · intro d hdd
          exact ⟨fun _ => hecho, fun _ => h1.symm⟩
      · rw [if_neg hecho] at hfs
        injection hfs with h1
        refine ⟨Or.inr (Or.inr h1.symm), ?_, ?_, hcontains⟩
        · constructor
          · intro hn; exact absurd hn (by simp)
          · intro hfsv
            rw [← h1] at hfsv
            exact absurd hfsv (by decide)
        · intro d hdd
          constructor
          · intro hfsv
            rw [← h1] at hfsv
            exact absurd hfsv (by decide)
          · intro hb
            exact absurd hb hecho

set_option maxRecDepth 8000 in
/-- Witness for C4 (amended) at a no-op wrapper command line. -/
theorem subjectSummary_recon_status_amended_witness :
    "Pre-existing directory" = "Not run" ∨ "Pre-existing directory" = "Pre-existing directory"
      ∨ "Pre-existing directory" = "Run by fMRIPrep" :=
  (subjectSummary_recon_status_amended "echo recon-all"
    ⟨["/t1.nii"], [], some "/fs", some "01", none, [], []⟩ "Pre-existing directory"
    "\t<ul class=\"elem-desc\">\n\t\t<li>Subject ID: 01</li>\n\t\t<li>Structural images: 1 T1-weighted </li>\n\t\t<li>Functional series: 0</li>\n\n\t\t<li>Standard output spaces: </li>\n\t\t<li>Non-standard output spaces: </li>\n\t\t<li>FreeSurfer reconstruction: Pre-existing directory</li>\n\t</ul>\n"
    (by decide) (by decide)).1

/-- C5: with report generation disabled, `MELODICRPT._post_run_hook` does
nothing beyond the base hook: no file is written, the plotting routine is not
invoked, `_out_report` stays `None`, and `_list_outputs` returns exactly the
base tool's outputs. -/
theorem melodicRPT_no_report_spec (inp : MelodicInputs) (cwd : String)
    (pathExists : String → Bool) (baseOutputs : List (String × String)) :
    (melodicPostRunHook false inp cwd pathExists).filesWritten = []
    ∧ (melodicPostRunHook false inp cwd pathExists).plotCalled = false
    ∧ (melodicPostRunHook false inp cwd pathExists).outReport = none
    ∧ melodicListOutputs baseOutputs (melodicPostRunHook false inp cwd pathExists).outReport
        = baseOutputs :=
  ⟨rfl, rfl, rfl, rfl⟩

/-! ## Suffix behaviour of the `.svg` to `.html` replacement -/

theorem isPrefixOfEqAppend : ∀ {l₁ l₂ : List Char}, l₁.isPrefixOf l₂ = true →
    ∃ t, l₁ ++ t = l₂ := by
  intro l₁
  induction l₁ with
  | nil => intro l₂ _; exact ⟨l₂, rfl⟩
  | cons a t ih =>
    intro l₂ h
    cases l₂ with
    | nil => simp [List.isPrefixOf] at h
    | cons b t2 =>
      simp only [List.isPrefixOf, Bool.and_eq_true] at h
      rcases h with ⟨hab, ht⟩
      have hab2 : a = b := by simpa using hab
      rcases ih ht with ⟨t3, ht3⟩
      refine ⟨t3, ?_⟩
      rw [← hab2]
      simp [ht3]

theorem isPrefixOfSelf : ∀ (l : List Char), l.isPrefixOf l = true := by
  intro l
  induction l with
  | nil => rfl
  | cons a t ih => simp [List.isPrefixOf, ih]

/-- A string of the form `".svg" ++ t` that still ends in `.svg` after the
leading occurrence does so inside `t`: the pattern `.svg` cannot straddle its
own boundary. -/
theorem svg_suffix_shift : ∀ (t : List Char),
    ['.', 's', 'v', 'g'] <:+ ['.', 's', 'v', 'g'] ++ t → t ≠ [] →
    (['.', 's', 'v', 'g'] <:+ t) ∧ 4 ≤ t.length := by
  intro t h hne
  rcases h with ⟨q, hq⟩
  have hlq : q.length = t.length := by
    have h2 := congrArg List.length hq
    simp at h2
    omega
  cases t with
  | nil => exact absurd rfl hne
  | cons a1 t1 =>
    cases t1 with
    | nil =>
      exfalso
      cases q with
      | nil => simp at hlq
      | cons x q2 =>
        cases q2 with
        | nil =>
          exact absurd
            (by simpa using congrArg (fun l => l.getD 1 ' ') hq : ('.' : Char) = 's')
            (by decide)
        | cons y q3 => simp at hlq
    | cons a2 t2 =>
      cases t2 with
      | nil =>
        exfalso
        cases q with
        | nil => simp at hlq
        | cons x q2 =>
          cases q2 with
          | nil => simp at hlq
          | cons y q3 =>
            cases q3 with
            | nil =>
              exact absurd
                (by simpa using congrArg (fun l => l.getD 2 ' ') hq : ('.' : Char) = 'v')
                (by decide)
            | cons z q4 => simp at hlq
      | cons a3 t3 =>
        cases t3 with
        | nil =>
          exfalso
          cases q with
          | nil => simp at hlq
          | cons x q2 =>
            cases q2 with
            | nil => simp at hlq
            | cons y q3 =>
              cases q3 with
              | nil => simp at hlq
              | cons z q4 =>
                cases q4 with
                | nil =>
                  exact absurd
                    (by simpa using congrArg (fun l => l.getD 3 ' ') hq : ('.' : Char) = 'g')
                    (by decide)
                | cons w q5 => simp at hlq
        | cons a4 t4 =>
          constructor
          · have hdrop : (q ++ ['.', 's', 'v', 'g']).drop q.length = ['.', 's', 'v', 'g'] :=
              List.drop_left _ _
            rw [hq, hlq] at hdrop
            rw [List.drop_append_eq_append_drop] at hdrop
            have hnil : (['.', 's', 'v', 'g'] : List Char).drop
                ((a1 :: a2 :: a3 :: a4 :: t4 : List Char).length) = [] := by
              apply List.drop_eq_nil_of_le
              simp
            rw [hnil, List.nil_append] at hdrop
            have hs := List.drop_suffix
              ((a1 :: a2 :: a3 :: a4 :: t4 : List Char).length
                - (['.', 's', 'v', 'g'] : List Char).length)
              (a1 :: a2 :: a3 :: a4 :: t4)
            rw [hdrop] at hs
            exact hs
          · simp

/-- Replacing every `.svg` by `.html` turns a string ending in `.svg` into
one ending in `.html`. -/
theorem replFuel_svg_html : ∀ (f : Nat) (s : List Char), s.length ≤ f →
    ['.', 's', 'v', 'g'] <:+ s →
    ['.', 'h', 't', 'm', 'l'] <:+ replFuel ['.', 's', 'v', 'g'] ['.', 'h', 't', 'm', 'l'] f s := by
  intro f
  induction f with
  | zero =>
    intro s hlen hsuf
    have h4 := hsuf.length_le
    simp at h4
    omega
  | succ f ih =>
    intro s hlen hsuf
    cases s with
    | nil =>
      have h4 := hsuf.length_le
      simp at h4
    | cons c rest =>
      by_cases hpre : List.isPrefixOf ['.', 's', 'v', 'g'] (c :: rest) = true
      · have hstep : replFuel ['.', 's', 'v', 'g'] ['.', 'h', 't', 'm', 'l'] (f + 1) (c :: rest)
            = ['.', 'h', 't', 'm', 'l']
              ++ replFuel ['.', 's', 'v', 'g'] ['.', 'h', 't', 'm', 'l'] f
                  ((c :: rest).drop 4) := by
          simp [replFuel, hpre]
        rw [hstep]
        rcases isPrefixOfEqAppend hpre with ⟨t, ht⟩
        have hdrop : (c :: rest).drop 4 = t := by
          rw [← ht]
          simp
        rw [hdrop]
        by_cases ht0 : t = []
        · rw [ht0]
          rw [show replFuel ['.', 's', 'v', 'g'] ['.', 'h', 't', 'm', 'l'] f ([] : List Char)
              = [] from by cases f <;> rfl]
          simp
        · have hsuf2 : ['.', 's', 'v', 'g'] <:+ ['.', 's', 'v', 'g'] ++ t := by
            rw [ht]
            exact hsuf
          have hshift := svg_suffix_shift t hsuf2 ht0
          have hlent : t.length ≤ f := by
            have h2 := congrArg List.length ht
            simp at h2 hlen
            omega
          exact (ih t hlent hshift.1).trans (List.suffix_append _ _)
      · have hstep : replFuel ['.', 's', 'v', 'g'] ['.', 'h', 't', 'm', 'l'] (f + 1) (c :: rest)
            = c :: replFuel ['.', 's', 'v', 'g'] ['.', 'h', 't', 'm', 'l'] f rest := by
          simp [replFuel, hpre]
        rw [hstep]
        rcases List.suffix_cons_iff.mp hsuf with heq | hsuf2
        · exfalso
          apply hpre
          rw [← heq]
          exact isPrefixOfSelf _
        · have hlenr : rest.length ≤ f := by
            simp at hlen
            omega
          exact (ih rest hlenr hsuf2).trans (List.suffix_cons c _)

/-- `pyReplace` with pattern `.svg` and replacement `.html` maps any string
ending in `.svg` to one ending in `.html`. -/
theorem pyReplace_svg_html (s : String) (h : strEndsWith s ".svg") :
    strEndsWith (pyReplace s ".svg" ".html") ".html" := by
  unfold strEndsWith at h ⊢
  have hdata : (pyReplace s ".svg" ".html").data
      = replFuel (".svg".data) (".html".data) s.data.length s.data := rfl
  rw [hdata]
  exact replFuel_svg_html s.data.length s.data (le_refl _) h

theorem strEndsWith_append_left (a s t : String) (h : strEndsWith s t) :
    strEndsWith (a ++ s) t := by
  unfold strEndsWith at h ⊢
  have hd : (a ++ s).data = a.data ++ s.data := by simp
  rw [hd]
  exact h.trans (List.suffix_append _ _)

theorem osJoin_keeps_suffix (a b t : String) (h : strEndsWith b t) :
    strEndsWith (osJoin a b) t := by
  unfold osJoin
  split
  · exact h
  · split
    · exact h
    · split
      · exact strEndsWith_append_left a b t h
      · exact strEndsWith_append_left (a ++ "/") b t h

theorem osAbspath_keeps_suffix (cwd p t : String) (h : strEndsWith p t) :
    strEndsWith (osAbspath cwd p) t := by
  unfold osAbspath
  split
  · exact h
  · exact osJoin_keeps_suffix cwd p t h

theorem melodicOutReportAbs_keeps_suffix (inp : MelodicInputs) (cwd : String)
    (h : strEndsWith inp.out_report ".svg") :
    strEndsWith (melodicOutReportAbs inp cwd) ".svg" := by
  unfold melodicOutReportAbs
  split
  · exact h
  · exact osAbspath_keeps_suffix cwd _ _ (osJoin_keeps_suffix cwd _ _ h)

set_option maxRecDepth 8000 in
/-- C6 counterexample: with `out_report` configured as
`melodic_reportlet.png` and no `melodic_mix` present, the fallback notice is
written to `/wd/melodic_reportlet.png` — the written file's extension is not
`.html`, contradicting the claim for arbitrarily named reports. -/
theorem melodicRPT_extension_counterexample :
    (melodicPostRunHook true ⟨"melodic_reportlet.png", none⟩ "/wd" (fun _ => false)).filesWritten
      = [("/wd/melodic_reportlet.png", melodicNoConvergenceNotice)]
    ∧ ¬ strEndsWith "/wd/melodic_reportlet.png" ".html" :=
  ⟨by decide, by decide⟩

/-- C6 amended: with report generation enabled and no `melodic_mix` in the
resolved decomposition directory, the hook writes exactly one file — the
fixed non-convergence notice at the absolute `out_report` path with every
`.svg` occurrence replaced by `.html` — does not invoke the plotting
routine, raises nothing, and lists the written path as `out_report`; a
configured name ending in `.svg` (such as the default) therefore yields a
file ending in `.html`, while a name without `.svg` is written under its
original name. -/
theorem melodicRPT_nonconvergence_amended (inp : MelodicInputs) (cwd : String)
    (pathExists : String → Bool) (baseOutputs : List (String × String))
    (hmix : pathExists (osJoin (melodicDirOf inp cwd) "melodic_mix") = false) :
    (melodicPostRunHook true inp cwd pathExists).filesWritten
      = [(pyReplace (melodicOutReportAbs inp cwd) ".svg" ".html", melodicNoConvergenceNotice)]
    ∧ (melodicPostRunHook true inp cwd pathExists).plotCalled = false
    ∧ (melodicPostRunHook true inp cwd pathExists).outReport
        = some (pyReplace (melodicOutReportAbs inp cwd) ".svg" ".html")
    ∧ melodicListOutputs baseOutputs (melodicPostRunHook true inp cwd pathExists).outReport
        = baseOutputs
          ++ [("out_report", pyReplace (melodicOutReportAbs inp cwd) ".svg" ".html")]
    ∧ (strEndsWith inp.out_report ".svg" →
        strEndsWith (pyReplace (melodicOutReportAbs inp cwd) ".svg" ".html") ".html") := by
  refine ⟨?_, ?_, ?_, ?_, ?_⟩
  · simp [melodicPostRunHook, hmix]
  · simp [melodicPostRunHook, hmix]
  · simp [melodicPostRunHook, hmix]
  · simp [melodicPostRunHook, melodicListOutputs, hmix]
  · intro h
    exact pyReplace_svg_html _ (melodicOutReportAbs_keeps_suffix inp cwd h)

set_option maxRecDepth 8000 in
/-- Witness for C6 (amended) at the default `.svg` report name. -/
theorem melodicRPT_nonconvergence_amended_witness :
    (melodicPostRunHook true ⟨"melodic_reportlet.svg", none⟩ "/wd" (fun _ => false)).filesWritten
      = [(pyReplace (melodicOutReportAbs ⟨"melodic_reportlet.svg", none⟩ "/wd") ".svg" ".html",
          melodicNoConvergenceNotice)] :=
  (melodicRPT_nonconvergence_amended ⟨"melodic_reportlet.svg", none⟩ "/wd" (fun _ => false) []
    rfl).1

/-- C7: the AROMA hook first aggregates the wrapped tool's outputs, then
derives the classification file path by joining the aggregated output
directory with `classified_motion_ICs.txt`, and when a report is generated
the plotting routine receives exactly that path. -/
theorem icaAromaRPT_noise_file_spec (generateReport : Bool) (outDir : String)
    (inp : AromaInputs) (hgen : generateReport = true) :
    aromaPostRunHook generateReport outDir inp
      = [.aggregateOutputs outDir,
         .plotComponents inp.melodic_dir inp.in_file inp.out_report
           (osJoin outDir "classified_motion_ICs.txt")]
    ∧ (∀ md f o nf,
        AromaEvent.plotComponents md f o nf ∈ aromaPostRunHook generateReport outDir inp →
          nf = aromaNoiseComponentsFile outDir)
    ∧ (aromaPostRunHook generateReport outDir inp).head? = some (.aggregateOutputs outDir) := by
  subst hgen
  refine ⟨rfl, ?_, rfl⟩
  intro md f o nf hmem
  have hlist : aromaPostRunHook true outDir inp
      = [.aggregateOutputs outDir,
         .plotComponents inp.melodic_dir inp.in_file inp.out_report
           (osJoin outDir "classified_motion_ICs.txt")] := rfl
  rw [hlist] at hmem
  rcases List.mem_cons.mp hmem with h | h
  · simp at h
  · rcases List.mem_cons.mp h with h2 | h2
    · injection h2
    · cases h2

/-- Witness for C7 at a concrete output directory. -/
theorem icaAromaRPT_noise_file_spec_witness :
    aromaPostRunHook true "/out" ⟨"/mel", "/in.nii", "ica_aroma_reportlet.svg"⟩
      = [.aggregateOutputs "/out",
         .plotComponents "/mel" "/in.nii" "ica_aroma_reportlet.svg"
           (osJoin "/out" "classified_motion_ICs.txt")] :=
  (icaAromaRPT_noise_file_spec true "/out" ⟨"/mel", "/in.nii", "ica_aroma_reportlet.svg"⟩
    rfl).1

/-! ## Containment facts about the About template -/

theorem aboutTemplateFmt_contains_version (v c d : String) :
    strContains (aboutTemplateFmt v c d) v := by
  apply strContains_intro "\t<ul>\n\t\t<li>fMRIPrep version: " v
    ("</li>\n\t\t<li>fMRIPrep command: <code>" ++ c
      ++ "</code></li>\n\t\t<li>Date preprocessed: " ++ d ++ "</li>\n\t</ul>\n</div>\n")
  simp only [aboutTemplateFmt, String.append_assoc]

theorem aboutTemplateFmt_contains_command (v c d : String) :
    strContains (aboutTemplateFmt v c d) c := by
  apply strContains_intro
    ("\t<ul>\n\t\t<li>fMRIPrep version: " ++ v ++ "</li>\n\t\t<li>fMRIPrep command: <code>") c
    ("</code></li>\n\t\t<li>Date preprocessed: " ++ d ++ "</li>\n\t</ul>\n</div>\n")
  simp only [aboutTemplateFmt, String.append_assoc]

theorem aboutTemplateFmt_contains_date (v c d : String) :
    strContains (aboutTemplateFmt v c d) d := by
  apply strContains_intro
    ("\t<ul>\n\t\t<li>fMRIPrep version: " ++ v ++ "</li>\n\t\t<li>fMRIPrep command: <code>"
      ++ c ++ "</code></li>\n\t\t<li>Date preprocessed: ") d
    "</li>\n\t</ul>\n</div>\n"
  simp only [aboutTemplateFmt, String.append_assoc]

theorem digitChar_mod_isDigit (n : Nat) : (Nat.digitChar (n % 10)).isDigit = true := by
  have hb : ∀ k, k < 10 → (Nat.digitChar k).isDigit = true := by decide
  exact hb _ (Nat.mod_lt _ (by decide))

/-- The modelled strftime output always has the `YYYY-MM-DD HH:MM:SS ±ZZZZ`
shape. -/
theorem strftimeAbout_format_ok (t : WallClock) : tsFormatOk (strftimeAbout t) = true := by
  cases htz : t.tzNonneg with
  | true =>
    have hdata : (strftimeAbout t).data
        = [Nat.digitChar (t.year / 1000 % 10), Nat.digitChar (t.year / 100 % 10),
           Nat.digitChar (t.year / 10 % 10), Nat.digitChar (t.year % 10), '-',
           Nat.digitChar (t.month / 10 % 10), Nat.digitChar (t.month % 10), '-',
           Nat.digitChar (t.mday / 10 % 10), Nat.digitChar (t.mday % 10), ' ',
           Nat.digitChar (t.hour / 10 % 10), Nat.digitChar (t.hour % 10), ':',
           Nat.digitChar (t.minute / 10 % 10), Nat.digitChar (t.minute % 10), ':',
           Nat.digitChar (t.sec / 10 % 10), Nat.digitChar (t.sec % 10), ' ', '+',
           Nat.digitChar (t.tzHH / 10 % 10), Nat.digitChar (t.tzHH % 10),
           Nat.digitChar (t.tzMM / 10 % 10), Nat.digitChar (t.tzMM % 10)] := by
      unfold strftimeAbout
      rw [htz]
      rfl
    unfold tsFormatOk
    rw [hdata]
    simp [tsPattern, classOk, digitChar_mod_isDigit]
  | false =>
    have hdata : (strftimeAbout t).data
        = [Nat.digitChar (t.year / 1000 % 10), Nat.digitChar (t.year / 100 % 10),
           Nat.digitChar (t.year / 10 % 10), Nat.digitChar (t.year % 10), '-',
           Nat.digitChar (t.month / 10 % 10), Nat.digitChar (t.month % 10), '-',
           Nat.digitChar (t.mday / 10 % 10), Nat.digitChar (t.mday % 10), ' ',
           Nat.digitChar (t.hour / 10 % 10), Nat.digitChar (t.hour % 10), ':',
           Nat.digitChar (t.minute / 10 % 10), Nat.digitChar (t.minute % 10), ':',
           Nat.digitChar (t.sec / 10 % 10), Nat.digitChar (t.sec % 10), ' ', '-',
           Nat.digitChar (t.tzHH / 10 % 10), Nat.digitChar (t.tzHH % 10),
           Nat.digitChar (t.tzMM / 10 % 10), Nat.digitChar (t.tzMM % 10)] := by
      unfold strftimeAbout
      rw [htz]
      rfl
    unfold tsFormatOk
    rw [hdata]
    simp [tsPattern, classOk, digitChar_mod_isDigit]

/-- C8: the About segment embeds the version and command strings verbatim
and the render-time timestamp; the timestamp always has the
`YYYY-MM-DD HH:MM:SS ±ZZZZ` shape of `%Y-%m-%d %H:%M:%S %z`; and for two
invocations with the same inputs at different render times the surrounding
text is identical — only the timestamp field differs. -/
theorem aboutSummary_spec (version command : String) (t t2 : WallClock) :
    strContains (aboutGenerateSegment (some version) (some command) t) version
    ∧ strContains (aboutGenerateSegment (some version) (some command) t) command
    ∧ strContains (aboutGenerateSegment (some version) (some command) t) (strftimeAbout t)
    ∧ tsFormatOk (strftimeAbout t) = true
    ∧ (∃ p q : String,
        aboutGenerateSegment (some version) (some command) t = p ++ strftimeAbout t ++ q
        ∧ aboutGenerateSegment (some version) (some command) t2
            = p ++ strftimeAbout t2 ++ q) := by
  refine ⟨aboutTemplateFmt_contains_version _ _ _, aboutTemplateFmt_contains_command _ _ _,
    aboutTemplateFmt_contains_date _ _ _, strftimeAbout_format_ok t, ?_⟩
  refine ⟨"\t<ul>\n\t\t<li>fMRIPrep version: " ++ version
      ++ "</li>\n\t\t<li>fMRIPrep command: <code>" ++ command
      ++ "</code></li>\n\t\t<li>Date preprocessed: ",
    "</li>\n\t</ul>\n</div>\n", ?_, ?_⟩
  · simp only [aboutGenerateSegment, aboutTemplateFmt, fmtOptStr, String.append_assoc]
  · simp only [aboutGenerateSegment, aboutTemplateFmt, fmtOptStr, String.append_assoc]
